import Mathlib

set_option maxHeartbeats 1000000

namespace FilePublisher

/-! Shallow embedding of `src/main.ts` (obsidian-file-publisher).

Strings are Lean `String`s; file bytes read from the vault are modelled as a
`String` payload (the TypeScript `vault.read` returns a string).  The host
environment (Obsidian vault + HTTP) is modelled by an `Env` record of oracles
giving the outcome of each I/O primitive, and every function additionally
returns the list of I/O `Effect`s it performed, in order. -/

/-- A file handle: Obsidian's `TFile` carries (at least) a vault-relative
`path` and a base `name`. -/
structure TFile where
  path : String
  name : String
deriving DecidableEq

/-- Errors, one constructor per `new Error(...)` / `E.toError` site of the
source: `TE.fromNullable(new Error("File not found"))`, a throw from
`vault.read`, a throw from `axios.post`, the `"unable to build file path"`
error of `moveFile`, and a throw from `vault.rename`. -/
inductive PubError where
  | fileNotFound
  | readFailed (msg : String)
  | postFailed (msg : String)
  | buildPathFailed
  | renameFailed (msg : String)
deriving DecidableEq

/-- Observable side effects, in program order. -/
inductive Effect where
  | readFile (path : String)
  | httpPost (url contentType auth fileName content : String)
  | createFolder (path : String)
  | renameFile (oldPath newPath : String)
  | consoleLog (msg : String)
  | consoleError (e : PubError)
  | notice (msg : String)
deriving DecidableEq

/-- Host-environment oracles: the outcome of each fallible I/O primitive.
`Except.error msg` models a rejected promise / thrown error with message
`msg` (wrapped by `TEthunk`'s `E.toError`). -/
structure Env where
  readResult : String → Except String String
  postResult : String → String → String → Except String Unit
  createFolderResult : String → Except String Unit
  renameResult : String → String → Except String Unit

/-- `const PUBLISHED_DIR = "published"` (src/main.ts line 32). -/
def PUBLISHED_DIR : String := "published"

/-! ## String primitives used by the source

`file.path.contains(...)` is JavaScript substring containment
(`String.prototype.includes`), `Str.split("/")` is JavaScript
`String.prototype.split("/")`, and `parts.join("/")` is `Array.join("/")`. -/

/-- Boolean list-prefix test. -/
def isPrefixOfB : List Char → List Char → Bool
  | [], _ => true
  | _ :: _, [] => false
  | c :: cs, d :: ds => c = d && isPrefixOfB cs ds

/-- Boolean substring (contiguous sublist) test: `containsSub sub l` is true
iff `sub` occurs contiguously inside `l`. -/
def containsSub (sub : List Char) : List Char → Bool
  | [] => isPrefixOfB sub []
  | c :: cs => isPrefixOfB sub (c :: cs) || containsSub sub cs

/-- JavaScript `s.contains(target)` (= `s.includes(target)`): substring
containment, NOT path-segment membership. -/
def strContains (s target : String) : Bool := containsSub target.data s.data

/-- JavaScript `s.split("/")` on the character list: always returns at least
one (possibly empty) segment. -/
def splitSlashChars : List Char → List String
  | [] => [""]
  | c :: cs =>
    if c = '/' then "" :: splitSlashChars cs
    else
      match splitSlashChars cs with
      | [] => [String.mk [c]]
      | r :: rs => String.mk (c :: r.data) :: rs

/-- `Str.split("/")` of fp-ts: JavaScript `s.split("/")`. -/
def splitSlash (s : String) : List String := splitSlashChars s.data

/-- JavaScript `parts.join("/")`. -/
def joinSlash : List String → String
  | [] => ""
  | [s] => s
  | s :: r :: rest => s ++ "/" ++ joinSlash (r :: rest)

/-- fp-ts `ReadonlyArray.insertAt i a parts`: `some` (with `a` inserted at
index `i`) iff `0 ≤ i ≤ parts.length`, otherwise `none`. -/
def insertAt (i : Nat) (a : String) (l : List String) : Option (List String) :=
  if i ≤ l.length then some (l.take i ++ a :: l.drop i) else none

/-! ## moveFile (src/main.ts lines 114-142) -/

/-- The source's `TE.match(() => base, () => base)` applied to the outcome
of `vault.createFolder(base)`: BOTH the failure and the success continuation
return `base`, so any creation failure is swallowed. -/
def createdDir (res : Except String Unit) (base : String) : String :=
  match res with
  | Except.error _ => base
  | Except.ok _ => base

/-- `moveFile`: if `file.path.contains("published")` succeed with no I/O;
otherwise split the path on `"/"`, insert `"published"` at index
`parts.length - 1`, attempt `vault.createFolder(base)` with BOTH outcomes
mapped to `base` (the source's `TE.match(() => base, () => base)` swallows
any creation failure), then `vault.rename(file, path)`. -/
def moveFile (env : Env) (file : TFile) : Except PubError TFile × List Effect :=
  if strContains file.path PUBLISHED_DIR then
    (Except.ok file, [])
  else
    match insertAt ((splitSlash file.path).length - 1) PUBLISHED_DIR (splitSlash file.path) with
    | none => (Except.error PubError.buildPathFailed, [])
    | some parts =>
      let base := joinSlash parts.dropLast
      let newPath := joinSlash parts
      let created : String := createdDir (env.createFolderResult base) base
      match env.renameResult file.path newPath with
      | Except.error e =>
        (Except.error (PubError.renameFailed e),
          [Effect.createFolder created, Effect.renameFile file.path newPath])
      | Except.ok _ =>
        (Except.ok file,
          [Effect.createFolder created, Effect.renameFile file.path newPath])

/-! ## publishFile (src/main.ts lines 89-105) -/

/-- `publishFile`: read the file (`vault.read`), then `axios.post(url, data)`
with headers `Content-Type: multipart/form-data` and
`Authorization: "Basic " + token`, where `data = {fileName: file.name,
file: <content>}`; on success return the original `file` unchanged. -/
def publishFile (env : Env) (url token : String) (file : TFile) :
    Except PubError TFile × List Effect :=
  match env.readResult file.path with
  | Except.error e => (Except.error (PubError.readFailed e), [Effect.readFile file.path])
  | Except.ok content =>
    match env.postResult url file.name content with
    | Except.error e =>
      (Except.error (PubError.postFailed e),
        [Effect.readFile file.path,
         Effect.httpPost url "multipart/form-data" ("Basic " ++ token) file.name content])
    | Except.ok _ =>
      (Except.ok file,
        [Effect.readFile file.path,
         Effect.httpPost url "multipart/form-data" ("Basic " ++ token) file.name content])

/-! ## notify and the pipeline (src/main.ts lines 56-68 and 144-152) -/

/-- `notify(e, msg)`: `console.log(msg)`, then `console.error(e)` when an
error is present, then `new Notice(msg)`. -/
def notify (e : Option PubError) (msg : String) : List Effect :=
  Effect.consoleLog msg ::
    (match e with | some err => [Effect.consoleError err] | none => []) ++
      [Effect.notice msg]

/-- The onClick pipeline: `log("Publishing file...")`, then
`TE.fromNullable(new Error("File not found"))`, then `publishFile`, then
`moveFile`, then `TE.match(e => notify(e, "File failed to publish"),
() => notify(undefined, "File has been published"))`. -/
def pipeline (env : Env) (url token : String) (fileOpt : Option TFile) :
    Except PubError Unit × List Effect :=
  let eff0 := [Effect.consoleLog "Publishing file..."]
  match fileOpt with
  | none =>
    (Except.error PubError.fileNotFound,
      eff0 ++ notify (some PubError.fileNotFound) "File failed to publish")
  | some file =>
    match publishFile env url token file with
    | (Except.error e, tr) =>
      (Except.error e, eff0 ++ tr ++ notify (some e) "File failed to publish")
    | (Except.ok f, tr) =>
      match moveFile env f with
      | (Except.error e, tr2) =>
        (Except.error e, eff0 ++ tr ++ tr2 ++ notify (some e) "File failed to publish")
      | (Except.ok _, tr2) =>
        (Except.ok (), eff0 ++ tr ++ tr2 ++ notify none "File has been published")

/-! ## Effect counting helpers -/

def countIf (p : Effect → Bool) (l : List Effect) : Nat := (l.filter p).length

def isNotice : Effect → Bool
  | Effect.notice _ => true
  | _ => false

def isCreateFolder : Effect → Bool
  | Effect.createFolder _ => true
  | _ => false

def isRename : Effect → Bool
  | Effect.renameFile _ _ => true
  | _ => false

def isHttpPost : Effect → Bool
  | Effect.httpPost _ _ _ _ _ => true
  | _ => false

def isReadFile : Effect → Bool
  | Effect.readFile _ => true
  | _ => false

/-! ## Settings (src/main.ts lines 20-30 and 78-84) -/

structure Settings where
  url : String
  apiKey : String
  apiSecret : String
deriving DecidableEq

/-- `DEFAULT_SETTINGS` (src/main.ts lines 26-30). -/
def DEFAULT_SETTINGS : Settings := { url := "", apiKey := "", apiSecret := "" }

/-- Persisted state as read back by `loadData()`: a JSON-parsed object where
each field may be absent (`none`).  The whole object may also be absent
(`loadData` returning `null`/`undefined` for a missing data file), modelled
by the `Option PersistedData` argument of `loadSettings`. -/
structure PersistedData where
  url : Option String
  apiKey : Option String
  apiSecret : Option String
deriving DecidableEq

/-- `loadSettings`: `Object.assign({}, DEFAULT_SETTINGS, await this.loadData())`
— defaults overlaid field-by-field with the persisted fields that are
present. -/
def loadSettings (persisted : Option PersistedData) : Settings :=
  match persisted with
  | none => DEFAULT_SETTINGS
  | some d =>
    { url := d.url.getD DEFAULT_SETTINGS.url,
      apiKey := d.apiKey.getD DEFAULT_SETTINGS.apiKey,
      apiSecret := d.apiSecret.getD DEFAULT_SETTINGS.apiSecret }

/-- `saveSettings`: `this.saveData(this.settings)` persists the full object,
so every field is present in the stored state. -/
def saveSettings (s : Settings) : PersistedData :=
  { url := some s.url, apiKey := some s.apiKey, apiSecret := some s.apiSecret }

/-! ## Token derivation (src/main.ts line 50)

`Buffer.from(apiKey + ":" + apiSecret).toString("base64")`: UTF-8 bytes of
`key:secret`, standard base64 with `=` padding.  Byte strings are modelled as
`List Nat` (each element < 256); `58` is the code of `':'`. -/

def b64Chars : List Char :=
  "ABCDEFGHIJKLMNOPQRSTUVWXYZabcdefghijklmnopqrstuvwxyz0123456789+/".data

/-- The base64 character of a sextet value (< 64). -/
def sextetChar (n : Nat) : Char := b64Chars.getD n '='

def findIdx (c : Char) : List Char → Option Nat
  | [] => none
  | d :: ds => if c = d then some 0 else (findIdx c ds).map (· + 1)

/-- The sextet value of a base64 character (`none` for `'='` and any
non-alphabet character). -/
def charSextet (c : Char) : Option Nat := findIdx c b64Chars

/-- Standard base64 encoding of a byte string, with `=` padding
(`Buffer.toString("base64")`). -/
def b64encode : List Nat → List Char
  | [] => []
  | [a] => [sextetChar (a / 4), sextetChar (a % 4 * 16), '=', '=']
  | [a, b] =>
    [sextetChar (a / 4), sextetChar (a % 4 * 16 + b / 16), sextetChar (b % 16 * 4), '=']
  | a :: b :: c :: rest =>
    sextetChar (a / 4) :: sextetChar (a % 4 * 16 + b / 16) ::
      sextetChar (b % 16 * 4 + c / 64) :: sextetChar (c % 64) :: b64encode rest

/-- Standard base64 decoding: quartets of characters back to bytes, with
the two padded forms recovering two and one trailing bytes. -/
def b64decode : List Char → List Nat
  | c1 :: c2 :: c3 :: c4 :: rest =>
    match charSextet c1, charSextet c2, charSextet c3, charSextet c4 with
    | some s1, some s2, some s3, some s4 =>
      (s1 * 4 + s2 / 16) :: (s2 % 16 * 16 + s3 / 4) :: (s3 % 4 * 64 + s4) :: b64decode rest
    | some s1, some s2, some s3, none =>
      [s1 * 4 + s2 / 16, s2 % 16 * 16 + s3 / 4]
    | some s1, some s2, none, _ =>
      [s1 * 4 + s2 / 16]
    | _, _, _, _ => []
  | _ => []

/-- `const token = Buffer.from(apiKey + ":" + apiSecret).toString("base64")`
over byte strings; `58` is `':'`. -/
def deriveToken (apiKey apiSecret : List Nat) : List Char :=
  b64encode (apiKey ++ 58 :: apiSecret)

/-! ## Concrete environments used as witnesses -/

/-- An environment in which every I/O primitive succeeds. -/
def envOk : Env :=
  { readResult := fun _ => Except.ok "content",
    postResult := fun _ _ _ => Except.ok (),
    createFolderResult := fun _ => Except.ok (),
    renameResult := fun _ _ => Except.ok () }

/-- An environment whose POST fails with HTTP 500 (axios rejects). -/
def env500 : Env :=
  { readResult := fun _ => Except.ok "content",
    postResult := fun _ _ _ => Except.error "Request failed with status code 500",
    createFolderResult := fun _ => Except.ok (),
    renameResult := fun _ _ => Except.ok () }

/-- An environment whose folder creation fails for a reason other than
"already exists" (permission denied), everything else succeeding. -/
def envMkdirDenied : Env :=
  { readResult := fun _ => Except.ok "content",
    postResult := fun _ _ _ => Except.ok (),
    createFolderResult := fun _ => Except.error "EACCES: permission denied",
    renameResult := fun _ _ => Except.ok () }

def fileDraft : TFile := { path := "notes/draft.md", name := "draft.md" }

/-! ## Basic lemmas about the path primitives -/

def exceptToSum {ε α : Type} : Except ε α → ε ⊕ α
  | Except.error e => Sum.inl e
  | Except.ok a => Sum.inr a

instance instDecEqExcept {ε α : Type} [DecidableEq ε] [DecidableEq α] :
    DecidableEq (Except ε α) := fun a b =>
  decidable_of_iff (exceptToSum a = exceptToSum b)
    (by cases a <;> cases b <;> simp [exceptToSum])

theorem splitSlashChars_ne_nil (cs : List Char) : splitSlashChars cs ≠ [] := by
  cases cs with
  | nil => simp [splitSlashChars]
  | cons c cs =>
    by_cases hc : c = '/'
    · simp [splitSlashChars, hc]
    · simp only [splitSlashChars, hc, if_false]
      cases splitSlashChars cs <;> simp

theorem splitSlash_ne_nil (s : String) : splitSlash s ≠ [] :=
  splitSlashChars_ne_nil s.data

/-- The first segment produced by splitting is a prefix of the character
list it was split from. -/
theorem isPrefixOfB_split_head (cs : List Char) :
    ∀ r rs, splitSlashChars cs = r :: rs → isPrefixOfB r.data cs = true := by
  induction cs with
  | nil =>
    intro r rs h
    simp only [splitSlashChars] at h
    cases h
    rfl
  | cons c cs ih =>
    intro r rs h
    by_cases hc : c = '/'
    · simp only [splitSlashChars, hc, if_true] at h
      cases h
      rfl
    · simp only [splitSlashChars, hc, if_false] at h
      cases hsp : splitSlashChars cs with
      | nil => exact absurd hsp (splitSlashChars_ne_nil cs)
      | cons r2 rs2 =>
        rw [hsp] at h
        cases h
        show isPrefixOfB (c :: r2.data) (c :: cs) = true
        simp [isPrefixOfB, ih _ _ hsp]

theorem containsSub_cons (sub : List Char) (c : Char) (cs : List Char)
    (h : containsSub sub cs = true) : containsSub sub (c :: cs) = true := by
  simp [containsSub, h]

/-- Every segment produced by splitting on `'/'` occurs as a substring of
the original character list. -/
theorem containsSub_of_mem_split (cs : List Char) :
    ∀ seg, seg ∈ splitSlashChars cs → containsSub seg.data cs = true := by
  induction cs with
  | nil =>
    intro seg h
    simp only [splitSlashChars, List.mem_singleton] at h
    subst h
    rfl
  | cons c cs ih =>
    intro seg h
    by_cases hc : c = '/'
    · simp only [splitSlashChars, hc, if_true, List.mem_cons] at h
      rcases h with h | h
      · subst h
        rfl
      · exact containsSub_cons _ _ _ (ih seg h)
    · simp only [splitSlashChars, hc, if_false] at h
      cases hsp : splitSlashChars cs with
      | nil => exact absurd hsp (splitSlashChars_ne_nil cs)
      | cons r rs =>
        rw [hsp] at h
        rcases List.mem_cons.mp h with h | h
        · subst h
          have hpre : isPrefixOfB r.data cs = true := isPrefixOfB_split_head cs r rs hsp
          simp [containsSub, isPrefixOfB, hpre]
        · have : seg ∈ splitSlashChars cs := by rw [hsp]; exact List.mem_cons_of_mem _ h
          exact containsSub_cons _ _ _ (ih seg this)

/-- A path that has a whole segment equal to `target` contains `target` as a
substring, so the source's `contains` guard fires. -/
theorem strContains_of_mem_splitSlash (s target : String)
    (h : target ∈ splitSlash s) : strContains s target = true :=
  containsSub_of_mem_split s.data target h

theorem drop_pred_length (l : List String) (h : l ≠ []) :
    l.drop (l.length - 1) = [l.getLastD ""] := by
  induction l with
  | nil => exact absurd rfl h
  | cons a t ih =>
    cases t with
    | nil => rfl
    | cons b t2 =>
      have hne : (b :: t2) ≠ ([] : List String) := by simp
      have ihx := ih hne
      simp only [List.length_cons, Nat.add_sub_cancel] at ihx ⊢
      calc List.drop (t2.length + 1) (a :: b :: t2)
      _ = List.drop t2.length (b :: t2) := List.drop_succ_cons
      _ = [(b :: t2).getLastD ""] := by simpa using ihx
      _ = [(a :: b :: t2).getLastD ""] := by simp [List.getLastD_cons]

theorem insertAt_pred_length (l : List String) (a : String) (h : l ≠ []) :
    insertAt (l.length - 1) a l = some (l.dropLast ++ a :: [l.getLastD ""]) := by
  unfold insertAt
  rw [if_pos (Nat.sub_le _ _)]
  rw [← List.dropLast_eq_take, drop_pred_length l h]

theorem dropLast_append_pair (xs : List String) (a b : String) :
    (xs ++ [a, b]).dropLast = xs ++ [a] := by
  have : xs ++ [a, b] = (xs ++ [a]) ++ [b] := by simp
  rw [this, List.dropLast_concat]

theorem joinSlash_append (xs ys : List String) (hx : xs ≠ []) (hy : ys ≠ []) :
    joinSlash (xs ++ ys) = joinSlash xs ++ "/" ++ joinSlash ys := by
  induction xs with
  | nil => exact absurd rfl hx
  | cons a t ih =>
    cases t with
    | nil =>
      cases ys with
      | nil => exact absurd rfl hy
      | cons b u => simp [joinSlash]
    | cons a2 t2 =>
      have h2 : (a2 :: t2) ≠ ([] : List String) := by simp
      have hrec := ih h2
      simp only [List.cons_append] at hrec ⊢
      rw [joinSlash, joinSlash, hrec]
      simp [String.append_assoc]

/-! ## Characterization of moveFile -/

/-- The directory `moveFile` creates: the original parent segments with
`"published"` appended, rejoined. -/
def targetDir (file : TFile) : String :=
  joinSlash ((splitSlash file.path).dropLast ++ [PUBLISHED_DIR])

/-- The rename target `moveFile` computes: parent segments, then
`"published"`, then the base name, rejoined. -/
def targetPath (file : TFile) : String :=
  joinSlash ((splitSlash file.path).dropLast ++ [PUBLISHED_DIR, (splitSlash file.path).getLastD ""])

/-- The outcome of `moveFile` once it reaches the rename step. -/
def renameOutcome (env : Env) (file : TFile) : Except PubError TFile :=
  match env.renameResult file.path (targetPath file) with
  | Except.ok _ => Except.ok file
  | Except.error e => Except.error (PubError.renameFailed e)

theorem createdDir_eq (res : Except String Unit) (base : String) :
    createdDir res base = base := by
  cases res <;> rfl

theorem moveFile_contains_eq (env : Env) (file : TFile)
    (h : strContains file.path PUBLISHED_DIR = true) :
    moveFile env file = (Except.ok file, []) := by
  unfold moveFile
  rw [h]
  simp

theorem moveFile_not_contains_eq (env : Env) (file : TFile)
    (h : strContains file.path PUBLISHED_DIR = false) :
    moveFile env file =
      (renameOutcome env file,
       [Effect.createFolder (targetDir file), Effect.renameFile file.path (targetPath file)]) := by
  have hne : splitSlash file.path ≠ [] := splitSlash_ne_nil _
  unfold moveFile
  rw [h]
  simp only [Bool.false_eq_true, if_false]
  rw [insertAt_pred_length _ _ hne]
  simp only [createdDir_eq, dropLast_append_pair]
  cases hrn : env.renameResult file.path (joinSlash ((splitSlash file.path).dropLast ++
      PUBLISHED_DIR :: [(splitSlash file.path).getLastD ""])) <;>
    (simp only [List.getLastD_eq_getLast?] at hrn ⊢
     simp [hrn, renameOutcome, targetDir, targetPath, List.getLastD_eq_getLast?])

/-! ## Trace lemmas -/

theorem countIf_append (p : Effect → Bool) (l1 l2 : List Effect) :
    countIf p (l1 ++ l2) = countIf p l1 + countIf p l2 := by
  simp [countIf, List.filter_append]

theorem countIf_notify_notice (e : Option PubError) (msg : String) :
    countIf isNotice (notify e msg) = 1 := by
  cases e <;> simp [notify, countIf, isNotice, List.filter]

theorem countIf_notify_createFolder (e : Option PubError) (msg : String) :
    countIf isCreateFolder (notify e msg) = 0 := by
  cases e <;> simp [notify, countIf, isCreateFolder, List.filter]

theorem countIf_notify_rename (e : Option PubError) (msg : String) :
    countIf isRename (notify e msg) = 0 := by
  cases e <;> simp [notify, countIf, isRename, List.filter]

theorem notice_mem_notify (e : Option PubError) (msg : String) :
    Effect.notice msg ∈ notify e msg := by
  cases e <;> simp [notify]

theorem consoleError_mem_notify (e : PubError) (msg : String) :
    Effect.consoleError e ∈ notify (some e) msg := by
  simp [notify]

theorem publishFile_read_ok_eq (env : Env) (url token : String) (file : TFile)
    (content : String) (h : env.readResult file.path = Except.ok content) :
    publishFile env url token file =
      ((match env.postResult url file.name content with
        | Except.ok _ => Except.ok file
        | Except.error e => Except.error (PubError.postFailed e)),
       [Effect.readFile file.path,
        Effect.httpPost url "multipart/form-data" ("Basic " ++ token) file.name content]) := by
  unfold publishFile
  rw [h]
  cases hp : env.postResult url file.name content <;> simp [hp]

theorem publishFile_no_mutation_no_notice (env : Env) (url token : String) (file : TFile) :
    countIf isCreateFolder (publishFile env url token file).2 = 0 ∧
    countIf isRename (publishFile env url token file).2 = 0 ∧
    countIf isNotice (publishFile env url token file).2 = 0 := by
  unfold publishFile
  cases hr : env.readResult file.path with
  | error e => simp [hr, countIf, isCreateFolder, isRename, isNotice, List.filter]
  | ok content =>
    cases hp : env.postResult url file.name content <;>
      simp [hr, hp, countIf, isCreateFolder, isRename, isNotice, List.filter]

theorem moveFile_no_notice (env : Env) (file : TFile) :
    countIf isNotice (moveFile env file).2 = 0 := by
  cases hg : strContains file.path PUBLISHED_DIR
  · rw [moveFile_not_contains_eq env file hg]
    simp [countIf, isNotice, List.filter]
  · rw [moveFile_contains_eq env file hg]
    simp [countIf]

/-! ## Base64 lemmas -/

theorem charSextet_sextetChar : ∀ n < 64, charSextet (sextetChar n) = some n := by decide

theorem charSextet_pad : charSextet '=' = none := by decide

theorem b64decode_quartet (s1 s2 s3 s4 : Nat) (rest : List Char)
    (h1 : s1 < 64) (h2 : s2 < 64) (h3 : s3 < 64) (h4 : s4 < 64) :
    b64decode (sextetChar s1 :: sextetChar s2 :: sextetChar s3 :: sextetChar s4 :: rest) =
      (s1 * 4 + s2 / 16) :: (s2 % 16 * 16 + s3 / 4) :: (s3 % 4 * 64 + s4) :: b64decode rest := by
  simp only [b64decode, charSextet_sextetChar s1 h1, charSextet_sextetChar s2 h2,
    charSextet_sextetChar s3 h3, charSextet_sextetChar s4 h4]

theorem b64decode_two_pad (s1 s2 : Nat) (h1 : s1 < 64) (h2 : s2 < 64) :
    b64decode [sextetChar s1, sextetChar s2, '=', '='] = [s1 * 4 + s2 / 16] := by
  simp only [b64decode, charSextet_sextetChar s1 h1, charSextet_sextetChar s2 h2, charSextet_pad]

theorem b64decode_one_pad (s1 s2 s3 : Nat) (h1 : s1 < 64) (h2 : s2 < 64) (h3 : s3 < 64) :
    b64decode [sextetChar s1, sextetChar s2, sextetChar s3, '='] =
      [s1 * 4 + s2 / 16, s2 % 16 * 16 + s3 / 4] := by
  simp only [b64decode, charSextet_sextetChar s1 h1, charSextet_sextetChar s2 h2,
    charSextet_sextetChar s3 h3, charSextet_pad]

/-- Standard base64 decoding inverts the encoding of any byte string. -/
theorem b64decode_b64encode : ∀ (bs : List Nat), (∀ x ∈ bs, x < 256) →
    b64decode (b64encode bs) = bs
  | [], _ => rfl
  | [a], h => by
    have ha : a < 256 := h a (by simp)
    have e1 : a / 4 * 4 + (a % 4 * 16) / 16 = a := by omega
    simp only [b64encode]
    rw [b64decode_two_pad (a / 4) (a % 4 * 16) (by omega) (by omega), e1]
  | [a, b], h => by
    have ha : a < 256 := h a (by simp)
    have hb : b < 256 := h b (by simp)
    have e1 : a / 4 * 4 + (a % 4 * 16 + b / 16) / 16 = a := by omega
    have e2 : (a % 4 * 16 + b / 16) % 16 * 16 + (b % 16 * 4) / 4 = b := by omega
    simp only [b64encode]
    rw [b64decode_one_pad (a / 4) (a % 4 * 16 + b / 16) (b % 16 * 4)
      (by omega) (by omega) (by omega), e1, e2]
  | a :: b :: c :: rest, h => by
    have ha : a < 256 := h a (by simp)
    have hb : b < 256 := h b (by simp)
    have hc : c < 256 := h c (by simp)
    have ih := b64decode_b64encode rest (fun x hx => h x (by simp [hx]))
    have e1 : a / 4 * 4 + (a % 4 * 16 + b / 16) / 16 = a := by omega
    have e2 : (a % 4 * 16 + b / 16) % 16 * 16 + (b % 16 * 4 + c / 64) / 4 = b := by omega
    have e3 : (b % 16 * 4 + c / 64) % 4 * 64 + c % 64 = c := by omega
    simp only [b64encode]
    rw [b64decode_quartet (a / 4) (a % 4 * 16 + b / 16) (b % 16 * 4 + c / 64) (c % 64) _
      (by omega) (by omega) (by omega) (by omega), ih, e1, e2, e3]

/-! ## Claim theorems -/

/-- Claim C1 (amended): for every file whose path does not contain
`"published"` as a SUBSTRING, `moveFile` creates exactly one directory
(the original parent segments plus `"published"`) and renames the file to
`<original parent>/published/<original base name>` (segment-wise:
parent segments ++ ["published", base name], rejoined on "/"); on rename
success it returns success.  The claim's original guard — "no `published`
path segment" — is refuted by `moveFile_segment_guard_counterexample`:
the code's guard is substring containment, not segment equality. -/
theorem moveFile_target_path_of_not_contains (env : Env) (file : TFile)
    (h : strContains file.path PUBLISHED_DIR = false) :
    (moveFile env file).2 =
      [Effect.createFolder (targetDir file), Effect.renameFile file.path (targetPath file)] ∧
    countIf isCreateFolder (moveFile env file).2 ≤ 1 ∧
    ((splitSlash file.path).dropLast ≠ [] →
      targetPath file =
        joinSlash (splitSlash file.path).dropLast ++ "/" ++ PUBLISHED_DIR ++ "/" ++
          (splitSlash file.path).getLastD "") ∧
    (env.renameResult file.path (targetPath file) = Except.ok () →
      (moveFile env file).1 = Except.ok file) := by
  rw [moveFile_not_contains_eq env file h]
  refine ⟨rfl, ?_, ?_, ?_⟩
  · simp [countIf, isCreateFolder, List.filter]
  · intro hp
    unfold targetPath
    rw [joinSlash_append _ _ hp (by simp)]
    simp [joinSlash, String.append_assoc]
  · intro hr
    show renameOutcome env file = Except.ok file
    unfold renameOutcome
    rw [hr]

/-- Claim C1 counterexample: `"republished/draft.md"` has no path segment
equal to `"published"`, yet `moveFile` performs no I/O at all and returns
the file unchanged (its path differs from the target the claim requires),
because the code's guard `file.path.contains("published")` is a substring
test and fires on `"republished"`. -/
theorem moveFile_segment_guard_counterexample :
    PUBLISHED_DIR ∉ splitSlash "republished/draft.md" ∧
    moveFile envOk { path := "republished/draft.md", name := "draft.md" } =
      (Except.ok { path := "republished/draft.md", name := "draft.md" }, []) ∧
    "republished/draft.md" ≠
      targetPath { path := "republished/draft.md", name := "draft.md" } := by
  refine ⟨by decide, by decide, by decide⟩

/-- Witness for C1's amended theorem at `notes/draft.md`. -/
theorem moveFile_target_path_witness :
    strContains "notes/draft.md" PUBLISHED_DIR = false ∧
    (moveFile envOk fileDraft).2 =
      [Effect.createFolder "notes/published",
       Effect.renameFile "notes/draft.md" "notes/published/draft.md"] := by
  refine ⟨by decide, ?_⟩
  have h := moveFile_target_path_of_not_contains envOk fileDraft (by decide)
  rw [h.1]
  decide

/-- Claim C2: a file whose path has a segment equal to `"published"` is
returned unchanged as a success with zero I/O, and invoking `moveFile` again
on the returned file gives the same result with zero I/O again. -/
theorem moveFile_published_noop (env : Env) (file : TFile)
    (h : PUBLISHED_DIR ∈ splitSlash file.path) :
    moveFile env file = (Except.ok file, []) ∧
    (∀ f2, (moveFile env file).1 = Except.ok f2 →
      moveFile env f2 = (Except.ok f2, [])) := by
  have hc := strContains_of_mem_splitSlash file.path PUBLISHED_DIR h
  have h1 := moveFile_contains_eq env file hc
  refine ⟨h1, ?_⟩
  intro f2 h2
  rw [h1] at h2
  simp only [Except.ok.injEq] at h2
  subst h2
  exact h1

/-- Witness for C2 at `notes/published/draft.md`. -/
theorem moveFile_published_noop_witness :
    PUBLISHED_DIR ∈ splitSlash "notes/published/draft.md" ∧
    moveFile envOk { path := "notes/published/draft.md", name := "draft.md" } =
      (Except.ok { path := "notes/published/draft.md", name := "draft.md" }, []) := by
  refine ⟨by decide, ?_⟩
  exact (moveFile_published_noop envOk
    { path := "notes/published/draft.md", name := "draft.md" } (by decide)).1

/-- Claim C3 (amended): EVERY directory-creation failure is non-fatal, not
only the "already exists" one: `moveFile`'s behaviour is entirely
independent of the creation outcome (any two environments agreeing on
rename give identical results), the rename is always attempted, and the
final result is determined by the rename outcome alone — `moveFile` never
reports an error from the creation step.  The original claim's fatal branch
is refuted by `moveFile_mkdir_fatal_counterexample`. -/
theorem moveFile_mkdir_failure_nonfatal (env env2 : Env) (file : TFile)
    (h : env2.renameResult = env.renameResult) :
    moveFile env2 file = moveFile env file ∧
    (strContains file.path PUBLISHED_DIR = false →
      Effect.renameFile file.path (targetPath file) ∈ (moveFile env file).2 ∧
      (moveFile env file).1 = renameOutcome env file) := by
  cases hg : strContains file.path PUBLISHED_DIR
  · have ha := moveFile_not_contains_eq env file hg
    have hb := moveFile_not_contains_eq env2 file hg
    have hro : renameOutcome env2 file = renameOutcome env file := by
      unfold renameOutcome
      rw [h]
    refine ⟨?_, ?_⟩
    · rw [ha, hb, hro]
    · intro _
      rw [ha]
      exact ⟨by simp, rfl⟩
  · refine ⟨?_, ?_⟩
    · rw [moveFile_contains_eq env file hg, moveFile_contains_eq env2 file hg]
    · intro hfalse
      cases hfalse

/-- Claim C3 counterexample: directory creation fails with
`"EACCES: permission denied"` — not an "already exists" failure — yet
`moveFile` still attempts the rename and succeeds, instead of aborting
with an error as the claim requires. -/
theorem moveFile_mkdir_fatal_counterexample :
    envMkdirDenied.createFolderResult "notes/published" =
      Except.error "EACCES: permission denied" ∧
    moveFile envMkdirDenied fileDraft =
      (Except.ok fileDraft,
       [Effect.createFolder "notes/published",
        Effect.renameFile "notes/draft.md" "notes/published/draft.md"]) := by
  refine ⟨rfl, by decide⟩

/-- Witness for C3's amended theorem: a denied folder creation gives the
same behaviour as an environment in which creation succeeds. -/
theorem moveFile_mkdir_failure_nonfatal_witness :
    envMkdirDenied.renameResult = envOk.renameResult ∧
    moveFile envMkdirDenied fileDraft = moveFile envOk fileDraft :=
  ⟨rfl, (moveFile_mkdir_failure_nonfatal envOk envMkdirDenied fileDraft rfl).1⟩

/-- Claim C4: if the upload step fails for any reason, the pipeline ends in
the failure outcome with that error and relocation is never invoked: the
run's trace contains no folder creation and no rename. -/
theorem pipeline_upload_failure_skips_relocation (env : Env) (url token : String)
    (file : TFile) (e : PubError)
    (h : (publishFile env url token file).1 = Except.error e) :
    (pipeline env url token (some file)).1 = Except.error e ∧
    countIf isCreateFolder (pipeline env url token (some file)).2 = 0 ∧
    countIf isRename (pipeline env url token (some file)).2 = 0 := by
  have hcnt := publishFile_no_mutation_no_notice env url token file
  rcases hP : publishFile env url token file with ⟨r, tr⟩
  rw [hP] at h hcnt
  simp only at h hcnt
  subst h
  simp only [pipeline, hP]
  refine ⟨?_, ?_, ?_⟩
  · trivial
  · rw [countIf_append, countIf_append, hcnt.1, countIf_notify_createFolder]
    simp [countIf, isCreateFolder]
  · rw [countIf_append, countIf_append, hcnt.2.1, countIf_notify_rename]
    simp [countIf, isRename]

/-- Witness for C4: a mocked HTTP 500 makes the upload fail and the run
performs no folder creation and no rename. -/
theorem pipeline_upload_failure_witness :
    (publishFile env500 "https://api.test/publish" "azpz" fileDraft).1 =
      Except.error (PubError.postFailed "Request failed with status code 500") ∧
    (pipeline env500 "https://api.test/publish" "azpz" (some fileDraft)).1 =
      Except.error (PubError.postFailed "Request failed with status code 500") ∧
    countIf isCreateFolder (pipeline env500 "https://api.test/publish" "azpz" (some fileDraft)).2 = 0 ∧
    countIf isRename (pipeline env500 "https://api.test/publish" "azpz" (some fileDraft)).2 = 0 :=
  ⟨by decide,
   pipeline_upload_failure_skips_relocation env500 "https://api.test/publish" "azpz" fileDraft
     (PubError.postFailed "Request failed with status code 500") (by decide)⟩

/-- Claim C5: when the read succeeds, the upload step's trace is exactly one
file read followed by exactly one HTTP POST to the configured URL with
headers `Content-Type: multipart/form-data` and `Authorization: "Basic " +
token` and a body carrying the base name and the bytes read; on POST success
the original file reference is returned unchanged. -/
theorem publishFile_single_post (env : Env) (url token : String) (file : TFile)
    (content : String) (h : env.readResult file.path = Except.ok content) :
    (publishFile env url token file).2 =
      [Effect.readFile file.path,
       Effect.httpPost url "multipart/form-data" ("Basic " ++ token) file.name content] ∧
    countIf isHttpPost (publishFile env url token file).2 = 1 ∧
    (env.postResult url file.name content = Except.ok () →
      (publishFile env url token file).1 = Except.ok file) := by
  rw [publishFile_read_ok_eq env url token file content h]
  refine ⟨rfl, ?_, ?_⟩
  · simp [countIf, isHttpPost, List.filter]
  · intro hp
    simp [hp]

/-- Witness for C5 at `notes/draft.md` in the all-success environment. -/
theorem publishFile_single_post_witness :
    envOk.readResult fileDraft.path = Except.ok "content" ∧
    (publishFile envOk "https://api.test/publish" "azpz" fileDraft).2 =
      [Effect.readFile "notes/draft.md",
       Effect.httpPost "https://api.test/publish" "multipart/form-data"
         "Basic azpz" "draft.md" "content"] := by
  refine ⟨rfl, ?_⟩
  have h := publishFile_single_post envOk "https://api.test/publish" "azpz" fileDraft "content" rfl
  rw [h.1]
  decide

/-- Claim C6: the derived token is the standard base64 encoding of the byte
string `apiKey ++ ":" ++ apiSecret` (58 is the byte of `':'`), the
derivation is deterministic, and base64-decoding the token recovers exactly
`apiKey:apiSecret`. -/
theorem deriveToken_base64_roundtrip (apiKey apiSecret : List Nat)
    (hk : ∀ x ∈ apiKey, x < 256) (hs : ∀ x ∈ apiSecret, x < 256) :
    deriveToken apiKey apiSecret = b64encode (apiKey ++ 58 :: apiSecret) ∧
    (∀ k2 s2, k2 = apiKey → s2 = apiSecret →
      deriveToken k2 s2 = deriveToken apiKey apiSecret) ∧
    b64decode (deriveToken apiKey apiSecret) = apiKey ++ 58 :: apiSecret := by
  refine ⟨rfl, ?_, ?_⟩
  · intro k2 s2 hk2 hs2
    rw [hk2, hs2]
  · unfold deriveToken
    apply b64decode_b64encode
    intro x hx
    rcases List.mem_append.mp hx with hm | hm
    · exact hk x hm
    · rcases List.mem_cons.mp hm with hm | hm
      · omega
      · exact hs x hm

/-- Witness for C6 at `apiKey = "k"` (byte 107), `apiSecret = "s"`
(byte 115): decoding the token recovers the bytes of `"k:s"`. -/
theorem deriveToken_base64_roundtrip_witness :
    (∀ x ∈ [107], x < 256) ∧ (∀ x ∈ [115], x < 256) ∧
    b64decode (deriveToken [107] [115]) = [107, 58, 115] :=
  ⟨by decide, by decide,
   (deriveToken_base64_roundtrip [107] [115] (by decide) (by decide)).2.2⟩

/-- Claim C7: loading settings is total and overlays the defaults
`{url:"", apiKey:"", apiSecret:""}` field-by-field with the persisted
values; a persisted field wins exactly when it is present; absent state and
empty persisted state both yield the defaults. -/
theorem loadSettings_merge_defaults (d : PersistedData) (v : String) :
    loadSettings none = DEFAULT_SETTINGS ∧
    loadSettings (some { url := none, apiKey := none, apiSecret := none }) = DEFAULT_SETTINGS ∧
    (loadSettings (some d)).url = d.url.getD DEFAULT_SETTINGS.url ∧
    (loadSettings (some d)).apiKey = d.apiKey.getD DEFAULT_SETTINGS.apiKey ∧
    (loadSettings (some d)).apiSecret = d.apiSecret.getD DEFAULT_SETTINGS.apiSecret ∧
    (d.url = some v → (loadSettings (some d)).url = v) ∧
    (d.url = none → (loadSettings (some d)).url = "") := by
  refine ⟨rfl, rfl, rfl, rfl, rfl, ?_, ?_⟩ <;>
    (intro h; simp [loadSettings, h, DEFAULT_SETTINGS])

/-- Witness for C7: a partial persisted state fills only its present
fields; absent state yields the defaults. -/
theorem loadSettings_merge_defaults_witness :
    (loadSettings (some { url := some "https://api.test", apiKey := none, apiSecret := some "s" })).url =
      Option.getD (some "https://api.test") DEFAULT_SETTINGS.url ∧
    loadSettings none = DEFAULT_SETTINGS :=
  ⟨(loadSettings_merge_defaults
      { url := some "https://api.test", apiKey := none, apiSecret := some "s" } "").2.2.1,
   (loadSettings_merge_defaults { url := none, apiKey := none, apiSecret := none } "").1⟩

/-- Claim C8: with no file supplied the pipeline fails immediately with the
"File not found" error and performs no file read, no HTTP POST, no folder
creation and no rename. -/
theorem pipeline_null_file_not_found (env : Env) (url token : String) :
    (pipeline env url token none).1 = Except.error PubError.fileNotFound ∧
    countIf isReadFile (pipeline env url token none).2 = 0 ∧
    countIf isHttpPost (pipeline env url token none).2 = 0 ∧
    countIf isCreateFolder (pipeline env url token none).2 = 0 ∧
    countIf isRename (pipeline env url token none).2 = 0 := by
  refine ⟨rfl, rfl, rfl, rfl, rfl⟩

/-- Claim C9: every pipeline invocation emits exactly one user-visible
notification — the success message when every step succeeds and the failure
message, together with a console-level diagnostic log of the underlying
error, when any step fails. -/
theorem pipeline_exactly_one_notice (env : Env) (url token : String)
    (fileOpt : Option TFile) :
    countIf isNotice (pipeline env url token fileOpt).2 = 1 ∧
    ((pipeline env url token fileOpt).1 = Except.ok () →
      Effect.notice "File has been published" ∈ (pipeline env url token fileOpt).2) ∧
    (∀ e, (pipeline env url token fileOpt).1 = Except.error e →
      Effect.notice "File failed to publish" ∈ (pipeline env url token fileOpt).2 ∧
      Effect.consoleError e ∈ (pipeline env url token fileOpt).2) := by
  cases fileOpt with
  | none =>
    refine ⟨rfl, ?_, ?_⟩
    · intro hok
      cases hok
    · intro e he
      simp only [pipeline] at he ⊢
      simp only [Except.error.injEq] at he
      subst he
      exact ⟨by simp [notify], by simp [notify]⟩
  | some file =>
    have hcnt := (publishFile_no_mutation_no_notice env url token file).2.2
    rcases hP : publishFile env url token file with ⟨r, tr⟩
    rw [hP] at hcnt
    simp only at hcnt
    cases r with
    | error e0 =>
      simp only [pipeline, hP]
      refine ⟨?_, ?_, ?_⟩
      · rw [countIf_append, countIf_append, hcnt, countIf_notify_notice]
        simp [countIf, isNotice]
      · intro hok
        cases hok
      · intro e he
        simp only [Except.error.injEq] at he
        subst he
        constructor <;> simp [notify, List.mem_append]
    | ok f =>
      have hmv := moveFile_no_notice env f
      rcases hM : moveFile env f with ⟨r2, tr2⟩
      rw [hM] at hmv
      simp only at hmv
      cases r2 with
      | error e0 =>
        simp only [pipeline, hP, hM]
        refine ⟨?_, ?_, ?_⟩
        · rw [countIf_append, countIf_append, countIf_append, hcnt, hmv, countIf_notify_notice]
          simp [countIf, isNotice]
        · intro hok
          cases hok
        · intro e he
          simp only [Except.error.injEq] at he
          subst he
          constructor <;> simp [notify, List.mem_append]
      | ok f2 =>
        simp only [pipeline, hP, hM]
        refine ⟨?_, ?_, ?_⟩
        · rw [countIf_append, countIf_append, countIf_append, hcnt, hmv, countIf_notify_notice]
          simp [countIf, isNotice]
        · intro _
          simp [notify, List.mem_append]
        · intro e he
          cases he

/-- Witness for C9: one notification in an all-success run and one in a
failed (HTTP 500) run. -/
theorem pipeline_exactly_one_notice_witness :
    countIf isNotice (pipeline envOk "https://api.test/publish" "azpz" (some fileDraft)).2 = 1 ∧
    countIf isNotice (pipeline env500 "https://api.test/publish" "azpz" (some fileDraft)).2 = 1 :=
  ⟨(pipeline_exactly_one_notice envOk "https://api.test/publish" "azpz" (some fileDraft)).1,
   (pipeline_exactly_one_notice env500 "https://api.test/publish" "azpz" (some fileDraft)).1⟩

/-- Claim C10: the `"unable to build file path"` branch of `moveFile` is
unreachable: splitting any path string on `"/"` yields at least one
segment, inserting `"published"` at index (number of segments − 1) always
succeeds, and `moveFile` never returns that error. -/
theorem moveFile_build_path_error_unreachable (p : String) (env : Env) (file : TFile) :
    splitSlash p ≠ [] ∧
    (insertAt ((splitSlash p).length - 1) PUBLISHED_DIR (splitSlash p)).isSome = true ∧
    (moveFile env file).1 ≠ Except.error PubError.buildPathFailed := by
  refine ⟨splitSlash_ne_nil p, ?_, ?_⟩
  · rw [insertAt_pred_length _ _ (splitSlash_ne_nil p)]
    rfl
  · cases hg : strContains file.path PUBLISHED_DIR
    · rw [moveFile_not_contains_eq env file hg]
      show renameOutcome env file ≠ _
      unfold renameOutcome
      cases env.renameResult file.path (targetPath file) <;> simp
    · rw [moveFile_contains_eq env file hg]
      simp

end FilePublisher
